import Mathlib

/-!
Verification development for the DebateFlow repository.

Shallow embedding of the core modules:
  * `models.py` / `src/debateflow/models.py` — data model and pydantic validators
  * `prompts.py` (root) and `src/debateflow/prompts.py` — prompt assembly
  * `generator.py` — the 4-turn sequencer
  * `src/debateflow/voice.py` — deterministic voice pairing (SHA-256 based)
  * `agreement.py` — Cohen's kappa and annotator-agreement grouping

Python floats in `agreement.py` are modelled with exact rationals (`ℚ`);
Python strings are Lean `String`s; fallible constructs (pydantic validation,
dict / `next()` lookups, external completion calls) are modelled with
`Except` / `Option`.
-/

namespace DebateFlow

/-- Embeds `Side` from `models.py` (identical in both copies): the two-valued
string enum with members AFF = "aff" and NEG = "neg". -/
inductive Side where
  | aff
  | neg
deriving DecidableEq, Repr

/-- Embeds `Side.value`: the underlying string of the enum member. -/
def Side.value : Side → String
  | .aff => "aff"
  | .neg => "neg"

/-- Embeds `WeaknessType` from `models.py` (both copies define exactly these
four members). -/
inductive WeaknessType where
  | weak_evidence
  | argument_dropping
  | logical_gaps
  | burden_of_proof
deriving DecidableEq, Repr

/-- Embeds the `TurnRole` literal type from `models.py`:
`Literal["opening", "response", "rebuttal", "closing"]`. -/
inductive TurnRole where
  | opening
  | response
  | rebuttal
  | closing
deriving DecidableEq, Repr

/-- Embeds the underlying string of a `TurnRole` literal. -/
def TurnRole.str : TurnRole → String
  | .opening => "opening"
  | .response => "response"
  | .rebuttal => "rebuttal"
  | .closing => "closing"

/-- Embeds `Turn` from `models.py`: a single speech in a debate. -/
structure Turn where
  speaker : Side
  role : TurnRole
  text : String
deriving DecidableEq, Repr

/-- Embeds `ModelConfig` from `models.py`. The float temperature is modelled
as a rational. -/
structure ModelConfig where
  provider : String
  model_name : String
  temperature : ℚ
deriving DecidableEq, Repr

/-- Embeds `ConstraintInfo` from `models.py` (lines 57-61 in both copies):
two optional fields and no field validator. -/
structure ConstraintInfo where
  type : Option WeaknessType := none
  target_side : Option Side := none
deriving DecidableEq, Repr

/-- Embeds pydantic construction of a `ConstraintInfo`. The class declares no
validator, so construction succeeds for every combination of present/absent
fields; `Except` captures the (unused) possibility of a validation error. -/
def ConstraintInfo.validate (t : Option WeaknessType) (s : Option Side) :
    Except String ConstraintInfo :=
  Except.ok { type := t, target_side := s }

/-- Embeds the `exactly_four_turns` field validator of `Debate`
(`models.py` lines 84-89, identical in both copies): it raises a
`ValueError` naming the turn count when `len(v) != 4`, and otherwise
returns the list unchanged.  No other check is performed on the turns. -/
def exactly_four_turns (v : List Turn) : Except String (List Turn) :=
  if v.length ≠ 4 then
    Except.error ("Debate must have exactly 4 turns, got " ++ toString v.length)
  else
    Except.ok v

/-- Embeds `ANNOTATION_DIMENSIONS` from `src/debateflow/models.py`. -/
def ANNOTATION_DIMENSIONS : List String :=
  ["clash_engagement", "burden_fulfillment", "rebuttal_quality",
   "argument_extension", "strategic_adaptation"]

/-- Embeds `DimensionScore` from `src/debateflow/models.py`: a per-dimension
pair of 1-3 integer scores. -/
structure DimensionScore where
  dimension : String
  aff_score : ℤ
  neg_score : ℤ
deriving DecidableEq, Repr

/-- Embeds `Annotation` from `src/debateflow/models.py`.  The
`annotated_at` timestamp and version string are carried as opaque strings. -/
structure Annotation where
  debate_id : String
  annotator_id : String
  winner : Side
  winner_justification : String
  dimension_scores : List DimensionScore
  annotated_at : String
deriving DecidableEq, Repr

/-- Character-level "less or equal" on strings: lexicographic comparison by
code point, the order Python's `sorted` uses on `str`. -/
def charListLe : List Char → List Char → Bool
  | [], _ => true
  | _ :: _, [] => false
  | a :: as, b :: bs =>
    if a.toNat < b.toNat then true
    else if b.toNat < a.toNat then false
    else charListLe as bs

/-- String comparison by code points (Python `str` ordering). -/
def strLe (a b : String) : Bool := charListLe a.data b.data

/-- Insert a string into an already sorted list (by `strLe`). -/
def insertSorted (x : String) : List String → List String
  | [] => [x]
  | y :: ys => if strLe x y then x :: y :: ys else y :: insertSorted x ys

/-- Insertion sort by `strLe`; models Python's `sorted` on a list of
strings. -/
def sortLabels : List String → List String
  | [] => []
  | x :: xs => insertSorted x (sortLabels xs)

/-- Embeds the `exactly_five_dimensions` validator of `Annotation`
(`src/debateflow/models.py` lines 129-143) as a predicate: exactly five
scores whose sorted dimension names equal the sorted rubric-dimension
list. -/
def validDimensionScores (scores : List DimensionScore) : Prop :=
  scores.length = 5 ∧
    sortLabels (scores.map (fun ds => ds.dimension)) = sortLabels ANNOTATION_DIMENSIONS

instance (scores : List DimensionScore) : Decidable (validDimensionScores scores) := by
  unfold validDimensionScores; infer_instance

/-- Turn dictionaries handed to `build_user_prompt`: Python dicts with
`speaker`, `role` and `text` string entries. -/
structure TurnDict where
  speaker : String
  role : String
  text : String
deriving DecidableEq, Repr

/-- Uppercases a string character by character; models Python `str.upper`
on the ASCII speaker labels used here. -/
def strUpper (s : String) : String := ⟨s.data.map Char.toUpper⟩

/-- Models `"\n\n".join(parts)` — the string join used by both
`build_user_prompt` implementations. -/
def joinParts : List String → String
  | [] => ""
  | [p] => p
  | p :: rest => p ++ "\n\n" ++ joinParts rest

/-- Decides whether `needle` occurs at the head of `hay`. -/
def leadMatch : List Char → List Char → Bool
  | [], _ => true
  | _ :: _, [] => false
  | a :: as, b :: bs => a == b && leadMatch as bs

/-- Decides whether `needle` occurs anywhere inside `hay`. -/
def subOccurs (needle : List Char) : List Char → Bool
  | [] => leadMatch needle []
  | b :: bs => leadMatch needle (b :: bs) || subOccurs needle bs

/-- String containment: `strContains hay needle` decides whether `needle`
occurs as a contiguous substring of `hay` (Python's `needle in hay`). -/
def strContains (hay needle : String) : Bool := subOccurs needle.data hay.data

/-- The prefix shared by every weakness-injection template; its presence in
a system prompt marks that an injection occurred. -/
def INJECTION_MARKER : String := "IMPORTANT CONSTRAINT"

/-- Embeds the per-turn transcript label/text block used by both
`build_user_prompt` implementations (identical in `prompts.py` lines
125-127 and `src/debateflow/prompts.py` lines 152-154):
`"[SPEAKER — role]\ntext"`. -/
def turnBlock (t : TurnDict) : String :=
  "[" ++ strUpper t.speaker ++ " — " ++ t.role ++ "]" ++ "\n" ++ t.text

/-- Embeds `WEAKNESS_TEMPLATES` for the four weakness kinds shared by
`prompts.py` and `src/debateflow/prompts.py` (the texts are byte-identical
in the two files). -/
def WEAKNESS_TEMPLATES : WeaknessType → String
  | .weak_evidence =>
    "IMPORTANT CONSTRAINT: In this speech, rely primarily on anecdotal evidence, " ++
    "vague references to unnamed authorities (\x27experts say\x27, \x27studies show\x27), and " ++
    "hedging language. Your argument structure should remain coherent and your " ++
    "rhetoric confident, but the underlying evidence should be noticeably weak " ++
    "upon close inspection. Do not flag or acknowledge the weakness of your evidence."
  | .argument_dropping =>
    "IMPORTANT CONSTRAINT: In this speech, ignore one or two of your opponent\x27s " ++
    "key arguments entirely. Do not acknowledge that you are skipping them — simply " ++
    "do not address them. Focus on other points instead. Your speech should still " ++
    "sound complete and confident, but an attentive observer should notice that " ++
    "significant opposing arguments went unanswered."
  | .logical_gaps =>
    "IMPORTANT CONSTRAINT: In this speech, include one or two logical fallacies " ++
    "such as hasty generalization, false dichotomy, or non-sequitur. The surface " ++
    "rhetoric should remain confident and polished, but the logical connections " ++
    "between your premises and conclusions should contain noticeable gaps upon " ++
    "careful analysis. Do not label or call attention to the fallacies."
  | .burden_of_proof =>
    "IMPORTANT CONSTRAINT: In this speech, make key assertions without adequate " ++
    "support and shift the burden of proof to your opponent. Use phrases like " ++
    "\x27unless they can show otherwise\x27 or \x27it is obvious that\x27 without providing " ++
    "sufficient justification. Your tone should be confident, but your core claims " ++
    "should lack the evidential foundation they require. Do not acknowledge this gap."

end DebateFlow

namespace DebateFlow.Root

/-- Embeds `BASE_SYSTEM_PROMPTS` from the root `prompts.py` (lines 11-24). -/
def BASE_SYSTEM_PROMPTS : Side → String
  | .aff =>
    "You are a competitive debater arguing in FAVOR of the resolution. " ++
    "Present clear, well-structured arguments. Do not include meta-commentary " ++
    "about the debate itself — speak as if delivering a speech in a live round. " ++
    "Each speech should be 200–400 words."
  | .neg =>
    "You are a competitive debater arguing AGAINST the resolution. " ++
    "Present clear, well-structured arguments. Do not include meta-commentary " ++
    "about the debate itself — speak as if delivering a speech in a live round. " ++
    "Each speech should be 200–400 words."

/-- Embeds `TURN_INSTRUCTIONS` from the root `prompts.py` (lines 30-51),
keyed by the turn role. -/
def TURN_INSTRUCTIONS : TurnRole → String
  | .opening =>
    "This is your opening constructive speech. Present your strongest arguments " ++
    "and establish the framework for the debate. Define key terms if necessary " ++
    "and lay out the criteria by which the resolution should be evaluated."
  | .response =>
    "This is your response speech. You must directly engage with your opponent\x27s " ++
    "opening arguments — refute their key claims and present your own counter-arguments. " ++
    "Do not simply repeat your own position; show why the opponent\x27s case fails."
  | .rebuttal =>
    "This is your rebuttal speech. Defend your arguments against the opponent\x27s " ++
    "attacks, expose weaknesses in the opponent\x27s case, and extend your strongest " ++
    "points with additional reasoning or evidence."
  | .closing =>
    "This is your closing speech. Summarize the key clashes in the debate and " ++
    "explain why your side has won each one. Weigh the most important arguments " ++
    "and give the judge clear reasons to vote for your side."

/-- Embeds `build_system_prompt` from the root `prompts.py` (lines 89-109):
base prompt for the side, with the weakness template appended when the
speaking side is the constrained side, except `argument_dropping` on the
opening turn. -/
def build_system_prompt (side : Side) (weakness : Option WeaknessType)
    (target_side : Option Side) (role : TurnRole) : String :=
  let prompt := BASE_SYSTEM_PROMPTS side
  match weakness with
  | none => prompt
  | some w =>
    if target_side = some side then
      if w = WeaknessType.argument_dropping ∧ role = TurnRole.opening then
        prompt
      else
        prompt ++ "\n\n" ++ WEAKNESS_TEMPLATES w
    else
      prompt

/-- Embeds `build_user_prompt` from the root `prompts.py` (lines 112-132):
resolution, optional bracketed transcript of prior turns, then the role
instruction, joined by blank lines. -/
def build_user_prompt (resolution : String) (role : TurnRole)
    (previous_turns : List TurnDict) : String :=
  let parts := ["Resolution: " ++ resolution]
  let parts := if previous_turns.isEmpty then parts else
    parts ++ ["\n--- Debate so far ---"] ++
      previous_turns.map turnBlock ++
      ["--- End of debate so far ---\n"]
  let parts := parts ++ [TURN_INSTRUCTIONS role]
  joinParts parts

end DebateFlow.Root

namespace DebateFlow.DF

/-- Embeds the weakness-type set used by `src/debateflow/prompts.py`: the
four shared kinds plus `SIDE_CONCESSION`.  The module (and its tests)
reference `WeaknessType.SIDE_CONCESSION`, which the spec designates as the
authoritative extended set. -/
inductive WeaknessType where
  | weak_evidence
  | argument_dropping
  | logical_gaps
  | burden_of_proof
  | side_concession
deriving DecidableEq, Repr

/-- Embeds `WEAKNESS_TEMPLATES` from `src/debateflow/prompts.py`
(lines 62-99): the four shared templates plus the side-concession one. -/
def WEAKNESS_TEMPLATES : WeaknessType → String
  | .weak_evidence => DebateFlow.WEAKNESS_TEMPLATES .weak_evidence
  | .argument_dropping => DebateFlow.WEAKNESS_TEMPLATES .argument_dropping
  | .logical_gaps => DebateFlow.WEAKNESS_TEMPLATES .logical_gaps
  | .burden_of_proof => DebateFlow.WEAKNESS_TEMPLATES .burden_of_proof
  | .side_concession =>
    "IMPORTANT CONSTRAINT: In this speech, gradually drift toward agreeing with " ++
    "your opponent\x27s position. Start by acknowledging their strongest points, then " ++
    "subtly adopt their framing and reasoning. By the end of your speech, your " ++
    "conclusion should effectively support the opponent\x27s side rather than your own " ++
    "— but present this as if you believe you are still arguing your assigned " ++
    "position. Do not explicitly announce that you are switching sides."

/-- Embeds `BASE_SYSTEM_PROMPTS` from `src/debateflow/prompts.py`
(lines 11-26). -/
def BASE_SYSTEM_PROMPTS : Side → String
  | .aff =>
    "You are the AFFIRMATIVE debater. You argue IN FAVOR of the resolution " ++
    "— you believe it is true and should be adopted. " ++
    "Present clear, well-structured arguments. Do not include meta-commentary " ++
    "about the debate itself — speak as if delivering a speech in a live round. " ++
    "Each speech should be 200–400 words."
  | .neg =>
    "You are the NEGATIVE debater. You argue AGAINST the resolution " ++
    "— you believe it is false or should be rejected. " ++
    "Present clear, well-structured arguments. Do not include meta-commentary " ++
    "about the debate itself — speak as if delivering a speech in a live round. " ++
    "Each speech should be 200–400 words."

/-- Embeds `_SIDE_LABELS` from `src/debateflow/prompts.py` (lines 125-128):
display name and stance word per side. -/
def SIDE_LABELS : Side → String × String
  | .aff => ("AFFIRMATIVE", "IN FAVOR OF")
  | .neg => ("NEGATIVE", "AGAINST")

/-- Embeds `TURN_INSTRUCTIONS` from `src/debateflow/prompts.py`
(lines 32-56) with the `{side_name}` placeholders applied (the code fills
them via `str.format(side_name=...)`). -/
def TURN_INSTRUCTIONS (role : TurnRole) (side_name : String) : String :=
  match role with
  | .opening =>
    "This is your opening constructive speech as the " ++ side_name ++ ". Present your " ++
    "strongest arguments and establish the framework for the debate. Define key " ++
    "terms if necessary and lay out the criteria by which the resolution should " ++
    "be evaluated."
  | .response =>
    "This is your response speech as the " ++ side_name ++ ". You must directly engage " ++
    "with your opponent\x27s opening arguments — refute their key claims and present " ++
    "your own counter-arguments. Do not simply repeat your own position; show why " ++
    "the opponent\x27s case fails."
  | .rebuttal =>
    "This is your rebuttal speech as the " ++ side_name ++ ". Defend your arguments " ++
    "against the opponent\x27s attacks, expose weaknesses in the opponent\x27s case, " ++
    "and extend your strongest points with additional reasoning or evidence."
  | .closing =>
    "This is your closing speech as the " ++ side_name ++ ". Summarize the key clashes " ++
    "in the debate and explain why the " ++ side_name ++ " has won each one. Weigh the " ++
    "most important arguments and give the judge clear reasons to vote for the " ++
    side_name ++ "."

/-- Embeds `build_system_prompt` from `src/debateflow/prompts.py`
(lines 102-122): base prompt for the side; the weakness template is
appended when the speaking side is the constrained side, except that
`argument_dropping` and `side_concession` are skipped on the opening
turn. -/
def build_system_prompt (side : Side) (weakness : Option WeaknessType)
    (target_side : Option Side) (role : TurnRole) : String :=
  let prompt := BASE_SYSTEM_PROMPTS side
  match weakness with
  | none => prompt
  | some w =>
    if target_side = some side then
      if (w = WeaknessType.argument_dropping ∨ w = WeaknessType.side_concession) ∧
          role = TurnRole.opening then
        prompt
      else
        prompt ++ "\n\n" ++ WEAKNESS_TEMPLATES w
    else
      prompt

/-- Embeds `build_user_prompt` from `src/debateflow/prompts.py`
(lines 131-159): resolution, stance reminder, optional bracketed
transcript of prior turns, then the role instruction parameterized by the
side's display name, joined by blank lines. -/
def build_user_prompt (resolution : String) (role : TurnRole)
    (previous_turns : List TurnDict) (side : Side) : String :=
  let side_name := (SIDE_LABELS side).1
  let stance := (SIDE_LABELS side).2
  let parts := ["Resolution: " ++ resolution,
    "You are the " ++ side_name ++ ". You argue " ++ stance ++ " the resolution."]
  let parts := if previous_turns.isEmpty then parts else
    parts ++ ["\n--- Debate so far ---"] ++
      previous_turns.map turnBlock ++
      ["--- End of debate so far ---\n"]
  let parts := parts ++ [TURN_INSTRUCTIONS role side_name]
  joinParts parts

end DebateFlow.DF

namespace DebateFlow.Generator

/-- Embeds `TURN_SEQUENCE` from `generator.py` (lines 27-32): the fixed
(speaker, role) plan for the four turns. -/
def TURN_SEQUENCE : List (Side × TurnRole) :=
  [(Side.aff, TurnRole.opening), (Side.neg, TurnRole.response),
   (Side.aff, TurnRole.rebuttal), (Side.neg, TurnRole.closing)]

/-- Embeds the per-turn dict conversion of `generate_single_debate`
(`generator.py` lines 68-71): a prior `Turn` becomes a
`{speaker, role, text}` dict of strings. -/
def toDict (t : Turn) : TurnDict :=
  { speaker := t.speaker.value, role := t.role.str, text := t.text }

/-- Abstraction of the external text-completion capability used at
`generator.py` lines 74-75 (`make_agent(config, system_prompt)` followed by
`agent.run_sync(user_prompt).output`): given the model configuration, the
system prompt and the user prompt it returns generated text, or `none` for
a failed call. -/
abbrev Completion := ModelConfig → String → String → Option String

/-- Embeds the turn loop of `generate_single_debate` (`generator.py`
lines 56-77): walk the remaining (speaker, role) plan, building each
turn's system and user prompts from the constraint and the turns produced
so far, invoking the external completion, and appending the new turn.  A
failed completion aborts the whole generation (`none`). -/
def genLoop (complete : Completion) (resolution : String)
    (aff_config neg_config : ModelConfig) (constraint : ConstraintInfo) :
    List (Side × TurnRole) → List Turn → Option (List Turn)
  | [], turns => some turns
  | (speaker, role) :: rest, turns =>
    let config := if speaker = Side.aff then aff_config else neg_config
    let system_prompt :=
      Root.build_system_prompt speaker constraint.type constraint.target_side role
    let previous := turns.map toDict
    let user_prompt := Root.build_user_prompt resolution role previous
    match complete config system_prompt user_prompt with
    | none => none
    | some text =>
      genLoop complete resolution aff_config neg_config constraint rest
        (turns ++ [{ speaker := speaker, role := role, text := text }])

/-- Embeds the turn production of `generate_single_debate` (`generator.py`
lines 35-82): the four turns generated in `TURN_SEQUENCE` order starting
from an empty history. -/
def generate_turns (complete : Completion) (resolution : String)
    (aff_config neg_config : ModelConfig) (constraint : ConstraintInfo) :
    Option (List Turn) :=
  genLoop complete resolution aff_config neg_config constraint TURN_SEQUENCE []

end DebateFlow.Generator

namespace DebateFlow.Agreement

/-- Embeds `categories = sorted(set(labels_a) | set(labels_b))`
(`agreement.py` line 28): the sorted duplicate-free list of labels seen in
either sequence. -/
def categories (A B : List String) : List String := sortLabels ((A ++ B).dedup)

/-- Embeds one confusion-matrix entry (`agreement.py` lines 33-35): the
number of aligned positions where the first sequence has label `x` and the
second has label `y`. -/
def confusion (A B : List String) (x y : String) : ℕ :=
  (A.zip B).countP (fun p => p.1 == x && p.2 == y)

/-- Row sum of the confusion matrix (`agreement.py` line 42). -/
def rowSum (A B : List String) (x : String) : ℕ :=
  ((categories A B).map (fun y => confusion A B x y)).sum

/-- Column sum of the confusion matrix (`agreement.py` line 42). -/
def colSum (A B : List String) (y : String) : ℕ :=
  ((categories A B).map (fun x => confusion A B x y)).sum

/-- Observed agreement `p_o` (`agreement.py` line 38). -/
def p_o (A B : List String) : ℚ :=
  (((categories A B).map (fun c => confusion A B c c)).sum : ℚ) / (A.length : ℚ)

/-- Expected agreement `p_e` (`agreement.py` lines 41-44). -/
def p_e (A B : List String) : ℚ :=
  (((categories A B).map (fun c => rowSum A B c * colSum A B c)).sum : ℚ) /
    ((A.length : ℚ) * (A.length : ℚ))

/-- Embeds `_cohens_kappa` (`agreement.py` lines 21-48) in exact rational
arithmetic: 0 for empty sequences, 1 when `p_e` equals 1 exactly, and
`(p_o - p_e) / (1 - p_e)` otherwise. -/
def cohens_kappa (A B : List String) : ℚ :=
  if A.length = 0 then 0
  else if p_e A B = 1 then 1
  else (p_o A B - p_e A B) / (1 - p_e A B)

/-- The kappa algorithm exactly as the specification states it, written
independently with an index-based `|C| × |C|` confusion matrix over
`Finset.range` sums, for comparison against `cohens_kappa`. -/
def kappa_claim_formula (A B : List String) : ℚ :=
  if A.length = 0 then 0 else
  let n : ℚ := A.length
  let C := categories A B
  let k := C.length
  let M : ℕ → ℕ → ℕ := fun i j =>
    (A.zip B).countP (fun p => p.1 == C.getD i "" && p.2 == C.getD j "")
  let po : ℚ := (∑ i ∈ Finset.range k, (M i i : ℚ)) / n
  let row : ℕ → ℕ := fun i => ∑ j ∈ Finset.range k, M i j
  let col : ℕ → ℕ := fun i => ∑ j ∈ Finset.range k, M j i
  let pe : ℚ := (∑ i ∈ Finset.range k, ((row i : ℚ) * (col i : ℚ))) / (n * n)
  if pe = 1 then 1 else (po - pe) / (1 - pe)

/-- Embeds the `by_debate` grouping (`agreement.py` lines 60-62): the
annotations carrying the given debate id, in input order. -/
def groupFor (anns : List Annotation) (id : String) : List Annotation :=
  anns.filter (fun a => a.debate_id == id)

/-- The debate ids iterated by `sorted(by_debate.items())`
(`agreement.py` line 66): the distinct ids, sorted. -/
def debateIds (anns : List Annotation) : List String :=
  sortLabels ((anns.map (fun a => a.debate_id)).dedup)

/-- Embeds the pairing step (`agreement.py` lines 65-68): for each debate
id in sorted order, keep its annotation group exactly when the group has
size two and the two annotator ids differ. -/
def pairedPairs (anns : List Annotation) : List ( Annotation × Annotation) :=
  (debateIds anns).filterMap (fun id =>
    match groupFor anns id with
    | [a, b] => if a.annotator_id ≠ b.annotator_id then some (a, b) else none
    | _ => none)

/-- The agreement report returned by `compute_agreement`
(`agreement.py` lines 71 and 98-102). -/
structure AgreementReport where
  paired_debates : ℕ
  winner_kappa : Option ℚ
  dimension_agreement : List (String × ℚ × ℚ)
deriving DecidableEq, Repr

/-- Sequences a fallible computation over a list, failing as soon as one
element fails; models a Python loop in which a raised `StopIteration`
propagates out of `compute_agreement`. -/
def optionMapM (f : α → Option β) : List α → Option (List β)
  | [] => some []
  | x :: xs =>
    match f x with
    | none => none
    | some y =>
      match optionMapM f xs with
      | none => none
      | some ys => some (y :: ys)

/-- Embeds `next(ds for ds in ... if ds.dimension == dim)`
(`agreement.py` lines 86-87): the first matching score, or `none` when the
generator is exhausted (Python would raise `StopIteration`). -/
def findScore (scores : List DimensionScore) (dim : String) : Option DimensionScore :=
  scores.find? (fun ds => ds.dimension == dim)

/-- Embeds the per-dimension agreement computation (`agreement.py`
lines 80-96): collect both annotators' per-side scores (as string labels,
`str(score)`) across the paired debates and compute the two kappas. -/
def dimensionAgreementFor (paired : List ( Annotation × Annotation)) (dim : String) :
    Option (ℚ × ℚ) :=
  match optionMapM (fun p =>
      match findScore p.1.dimension_scores dim, findScore p.2.dimension_scores dim with
      | some sa, some sb => some (sa, sb)
      | _, _ => none) paired with
  | none => none
  | some sps =>
    let aff_a := sps.map (fun q => toString q.1.aff_score)
    let aff_b := sps.map (fun q => toString q.2.aff_score)
    let neg_a := sps.map (fun q => toString q.1.neg_score)
    let neg_b := sps.map (fun q => toString q.2.neg_score)
    some (cohens_kappa aff_a aff_b, cohens_kappa neg_a neg_b)

/-- Embeds `compute_agreement` (`agreement.py` lines 51-102).  The value is
`none` exactly when the Python function would raise (a missing dimension
score in some paired annotation). -/
def compute_agreement (anns : List Annotation) : Option AgreementReport :=
  let paired := pairedPairs anns
  if paired.isEmpty then
    some { paired_debates := 0, winner_kappa := none, dimension_agreement := [] }
  else
    let winners_a := paired.map (fun p => p.1.winner.value)
    let winners_b := paired.map (fun p => p.2.winner.value)
    let winner_kappa := cohens_kappa winners_a winners_b
    match optionMapM
        (fun dim => (dimensionAgreementFor paired dim).map (fun q => (dim, q)))
        ANNOTATION_DIMENSIONS with
    | none => none
    | some dims =>
      some { paired_debates := paired.length, winner_kappa := some winner_kappa,
             dimension_agreement := dims }

end DebateFlow.Agreement

namespace DebateFlow.Voice

/-- The 32-bit modulus used throughout the SHA-256 embedding. -/
def M32 : ℕ := 4294967296

/-- Right rotate of a 32-bit value, over naturals. -/
def rotr (n x : ℕ) : ℕ := ((x >>> n) ||| (x <<< (32 - n))) % M32

/-- Bitwise complement of a 32-bit word. -/
def not32 (x : ℕ) : ℕ := x ^^^ (M32 - 1)

/-- The SHA-256 initial hash values. -/
def H0 : List ℕ :=
  [1779033703, 3144134277, 1013904242, 2773480762,
   1359893119, 2600822924, 528734635, 1541459225]

/-- The SHA-256 round constants. -/
def K : List ℕ :=
  [1116352408, 1899447441, 3049323471, 3921009573, 961987163,
   1508970993, 2453635748, 2870763221, 3624381080, 310598401,
   607225278, 1426881987, 1925078388, 2162078206, 2614888103,
   3248222580, 3835390401, 4022224774, 264347078, 604807628,
   770255983, 1249150122, 1555081692, 1996064986, 2554220882,
   2821834349, 2952996808, 3210313671, 3336571891, 3584528711,
   113926993, 338241895, 666307205, 773529912, 1294757372,
   1396182291, 1695183700, 1986661051, 2177026350, 2456956037,
   2730485921, 2820302411, 3259730800, 3345764771, 3516065817,
   3600352804, 4094571909, 275423344, 430227734, 506948616,
   659060556, 883997877, 958139571, 1322822218, 1537002063,
   1747873779, 1955562222, 2024104815, 2227730452, 2361852424,
   2428436474, 2756734187, 3204031479, 3329325298]

/-- UTF-8 encoding of a single character as a byte list. -/
def utf8EncodeChar (c : Char) : List ℕ :=
  let n := c.toNat
  if n < 128 then [n]
  else if n < 2048 then [192 ||| (n >>> 6), 128 ||| (n &&& 63)]
  else if n < 65536 then
    [224 ||| (n >>> 12), 128 ||| ((n >>> 6) &&& 63), 128 ||| (n &&& 63)]
  else
    [240 ||| (n >>> 18), 128 ||| ((n >>> 12) &&& 63),
     128 ||| ((n >>> 6) &&& 63), 128 ||| (n &&& 63)]

/-- UTF-8 encoding of a string; models Python's `str.encode()`. -/
def utf8Encode (s : String) : List ℕ := s.data.flatMap utf8EncodeChar

/-- The 8-byte big-endian encoding of the message bit length. -/
def lengthBytes (n : ℕ) : List ℕ :=
  [(n >>> 56) % 256, (n >>> 48) % 256, (n >>> 40) % 256, (n >>> 32) % 256,
   (n >>> 24) % 256, (n >>> 16) % 256, (n >>> 8) % 256, n % 256]

/-- SHA-256 padding: append `0x80`, zero bytes up to 56 mod 64, then the
bit length. -/
def padMessage (msg : List ℕ) : List ℕ :=
  let l := msg.length
  let z := (120 - ((l + 1) % 64)) % 64
  msg ++ [128] ++ List.replicate z 0 ++ lengthBytes (l * 8)

/-- Packs a byte list into big-endian 32-bit words, four bytes at a time. -/
def bytesToWords : List ℕ → List ℕ
  | b0 :: b1 :: b2 :: b3 :: rest =>
    (b0 * 16777216 + b1 * 65536 + b2 * 256 + b3) :: bytesToWords rest
  | _ => []

/-- Splits a byte list into 64-byte chunks (fuelled for structural
recursion; the fuel is the list length, which always suffices). -/
def chunksAux : ℕ → List ℕ → List (List ℕ)
  | 0, _ => []
  | _, [] => []
  | fuel + 1, bytes => bytes.take 64 :: chunksAux fuel (bytes.drop 64)

/-- Splits a byte list into 64-byte chunks. -/
def chunks (bytes : List ℕ) : List (List ℕ) := chunksAux bytes.length bytes

/-- Extends the 16-word message schedule by the given number of words. -/
def extendW : ℕ → List ℕ → List ℕ
  | 0, ws => ws
  | n + 1, ws =>
    let t := ws.length
    let w15 := ws.getD (t - 15) 0
    let w2 := ws.getD (t - 2) 0
    let w7 := ws.getD (t - 7) 0
    let w16 := ws.getD (t - 16) 0
    let s0 := rotr 7 w15 ^^^ rotr 18 w15 ^^^ (w15 >>> 3)
    let s1 := rotr 17 w2 ^^^ rotr 19 w2 ^^^ (w2 >>> 10)
    extendW n (ws ++ [(w16 + s0 + w7 + s1) % M32])

/-- One SHA-256 compression round applied to the 8-word working state with
a (round constant, schedule word) pair. -/
def compressStep (st : ℕ × ℕ × ℕ × ℕ × ℕ × ℕ × ℕ × ℕ) (kw : ℕ × ℕ) :
    ℕ × ℕ × ℕ × ℕ × ℕ × ℕ × ℕ × ℕ :=
  let (a, b, c, d, e, f, g, h) := st
  let s1 := rotr 6 e ^^^ rotr 11 e ^^^ rotr 25 e
  let ch := (e &&& f) ^^^ (not32 e &&& g)
  let temp1 := (h + s1 + ch + kw.1 + kw.2) % M32
  let s0 := rotr 2 a ^^^ rotr 13 a ^^^ rotr 22 a
  let maj := (a &&& b) ^^^ (a &&& c) ^^^ (b &&& c)
  let temp2 := (s0 + maj) % M32
  ((temp1 + temp2) % M32, a, b, c, (d + temp1) % M32, e, f, g)

/-- Processes one 64-byte chunk, updating the 8-word hash state. -/
def compressChunk (hs : List ℕ) (chunk : List ℕ) : List ℕ :=
  let ws := extendW 48 (bytesToWords chunk)
  let init := (hs.getD 0 0, hs.getD 1 0, hs.getD 2 0, hs.getD 3 0,
               hs.getD 4 0, hs.getD 5 0, hs.getD 6 0, hs.getD 7 0)
  let r := (K.zip ws).foldl compressStep init
  let (a, b, c, d, e, f, g, h) := r
  [(hs.getD 0 0 + a) % M32, (hs.getD 1 0 + b) % M32, (hs.getD 2 0 + c) % M32,
   (hs.getD 3 0 + d) % M32, (hs.getD 4 0 + e) % M32, (hs.getD 5 0 + f) % M32,
   (hs.getD 6 0 + g) % M32, (hs.getD 7 0 + h) % M32]

/-- Big-endian byte expansion of a 32-bit word. -/
def wordBytes (w : ℕ) : List ℕ :=
  [(w >>> 24) % 256, (w >>> 16) % 256, (w >>> 8) % 256, w % 256]

/-- The SHA-256 digest of a byte message, as 32 bytes. -/
def sha256Bytes (msg : List ℕ) : List ℕ :=
  ((chunks (padMessage msg)).foldl compressChunk H0).flatMap wordBytes

/-- The SHA-256 digest interpreted as a natural number; models Python's
`int(hashlib.sha256(data).hexdigest(), 16)` (`voice.py` line 147). -/
def sha256Nat (msg : List ℕ) : ℕ :=
  (sha256Bytes msg).foldl (fun acc b => acc * 256 + b) 0

/-- An entry of a voice pool: `vid` carries the `voice_id` value for
ElevenLabs entries and the `voice_name` value for OpenAI entries, `name`
the display name (`voice.py` lines 56-63 and 97-104). -/
structure VoiceEntry where
  vid : String
  name : String
deriving DecidableEq, Repr

/-- Embeds `ELEVENLABS_VOICE_POOL` (`voice.py` lines 56-63). -/
def ELEVENLABS_VOICE_POOL : List VoiceEntry :=
  [{ vid := "JBFqnCBsd6RMkjVDRZzb", name := "George" },
   { vid := "TX3LPaxmHKxFdv7VOQHJ", name := "Liam" },
   { vid := "XB0fDUnXU5powFXDhCwa", name := "Charlotte" },
   { vid := "pFZP5JQG7iQjIQuC4Bku", name := "Lily" },
   { vid := "bIHbv24MWmeRgasZH58o", name := "Will" },
   { vid := "FGY2WhTYpPnrIDTdsKH5", name := "Laura" }]

/-- Embeds `OPENAI_VOICE_POOL` (`voice.py` lines 97-104). -/
def OPENAI_VOICE_POOL : List VoiceEntry :=
  [{ vid := "alloy", name := "Alloy" }, { vid := "echo", name := "Echo" },
   { vid := "fable", name := "Fable" }, { vid := "onyx", name := "Onyx" },
   { vid := "nova", name := "Nova" }, { vid := "shimmer", name := "Shimmer" }]

/-- The TTS provider selector (`voice.py` line 18). -/
inductive Provider where
  | elevenlabs
  | openai
deriving DecidableEq, Repr

/-- Embeds `get_voice_pool` (`voice.py` lines 129-134) with the provider
passed explicitly (the code's `None` default reads the environment, an
external concern). -/
def get_voice_pool : Provider → List VoiceEntry
  | .elevenlabs => ELEVENLABS_VOICE_POOL
  | .openai => OPENAI_VOICE_POOL

/-- Embeds `_all_distinct_pairs` (`voice.py` lines 124-126):
`itertools.combinations(pool, 2)` enumerates the ordered 2-combinations of
the pool in pool order. -/
def all_distinct_pairs : List VoiceEntry → List (VoiceEntry × VoiceEntry)
  | [] => []
  | x :: rest => rest.map (fun y => (x, y)) ++ all_distinct_pairs rest

/-- Embeds `pick_voice_pair` (`voice.py` lines 137-149): select the
combination at index `sha256(debate_id) mod len(pairs)`; the first
component is the AFF voice, the second the NEG voice. -/
def pick_voice_pair (debate_id : String) (provider : Provider) :
    VoiceEntry × VoiceEntry :=
  let pool := get_voice_pool provider
  let pairs := all_distinct_pairs pool
  let h := sha256Nat (utf8Encode debate_id)
  pairs.getD (h % pairs.length) ({ vid := "", name := "" }, { vid := "", name := "" })

end DebateFlow.Voice

namespace DebateFlow

/-! Theorems settling the claims, with shared helper lemmas. -/

set_option maxRecDepth 16384 in
/-- Neither base system prompt of `src/debateflow/prompts.py` contains the
injection marker. -/
theorem df_base_marker_free (s : Side) :
    strContains (DF.BASE_SYSTEM_PROMPTS s) INJECTION_MARKER = false := by
  cases s <;> decide

/-- C1: for every side, weakness type, target side and role,
`build_system_prompt` (`src/debateflow/prompts.py`) returns the base
prompt with the weakness template appended exactly when the target side is
the speaking side and it is not the case that the role is `opening` with
an `argument_dropping` or `side_concession` weakness; in every other case
the result is exactly the base prompt, and in particular the output never
contains the injection marker when the target side differs from the
speaking side. -/
theorem C1_weakness_injection (side : Side) (wt : DF.WeaknessType)
    (target : Option Side) (role : TurnRole) :
    (DF.build_system_prompt side (some wt) target role =
      if target = some side ∧
          ¬(role = TurnRole.opening ∧
            (wt = DF.WeaknessType.argument_dropping ∨
             wt = DF.WeaknessType.side_concession)) then
        DF.BASE_SYSTEM_PROMPTS side ++ "\n\n" ++ DF.WEAKNESS_TEMPLATES wt
      else
        DF.BASE_SYSTEM_PROMPTS side) ∧
    (target ≠ some side →
      strContains (DF.build_system_prompt side (some wt) target role)
        INJECTION_MARKER = false) := by
  constructor
  · simp only [DF.build_system_prompt]
    split_ifs <;> first | rfl | tauto
  · intro ht
    simp only [DF.build_system_prompt]
    rw [if_neg ht]
    exact df_base_marker_free side

/-- Witness for C1: concrete evaluation with the constraint targeting the
other side — the opening AFF prompt carries no injection marker. -/
theorem C1_weakness_injection_witness :
    strContains (DF.build_system_prompt Side.aff (some DF.WeaknessType.weak_evidence)
      (some Side.neg) TurnRole.opening) INJECTION_MARKER = false :=
  (C1_weakness_injection Side.aff DF.WeaknessType.weak_evidence (some Side.neg)
    TurnRole.opening).2 (by decide)

/-- C3 counterexample: a four-turn list whose roles are all `closing` and
whose speakers are all NEG is accepted unchanged by the `Debate` turns
validator, refuting the claim that every length-4 list with a wrong
role/speaker sequence is rejected. -/
theorem C3_counterexample :
    exactly_four_turns
      [{ speaker := Side.neg, role := TurnRole.closing, text := "a" },
       { speaker := Side.neg, role := TurnRole.closing, text := "b" },
       { speaker := Side.neg, role := TurnRole.closing, text := "c" },
       { speaker := Side.neg, role := TurnRole.closing, text := "d" }] =
    Except.ok
      [{ speaker := Side.neg, role := TurnRole.closing, text := "a" },
       { speaker := Side.neg, role := TurnRole.closing, text := "b" },
       { speaker := Side.neg, role := TurnRole.closing, text := "c" },
       { speaker := Side.neg, role := TurnRole.closing, text := "d" }] := rfl

/-- C3 (amended): the turns validator accepts exactly the four-element
turn lists — with no check on role or speaker order — and rejects every
other length with an error naming the expected and actual counts. -/
theorem C3_turn_validation (v : List Turn) :
    exactly_four_turns v =
      if v.length = 4 then Except.ok v
      else Except.error ("Debate must have exactly 4 turns, got " ++ toString v.length) := by
  unfold exactly_four_turns
  by_cases h : v.length = 4 <;> simp [h]

/-- C4 counterexample: a `ConstraintInfo` with a weakness type but no
target side is accepted by construction, refuting the claim that partial
field combinations fail fast with a validation error. -/
theorem C4_counterexample :
    ConstraintInfo.validate (some WeaknessType.weak_evidence) none =
      Except.ok { type := some WeaknessType.weak_evidence, target_side := none } := rfl

/-- C4 (amended): `ConstraintInfo` declares no validator, so construction
succeeds for every combination of present and absent fields; the
both-or-neither invariant is not enforced at construction time. -/
theorem C4_constraint_construction (t : Option WeaknessType) (s : Option Side) :
    ConstraintInfo.validate t s = Except.ok { type := t, target_side := s } := rfl

end DebateFlow

namespace DebateFlow

/-- A head match is exactly a prefix decomposition. -/
theorem leadMatch_iff (n : List Char) : ∀ h : List Char,
    leadMatch n h = true ↔ ∃ r, h = n ++ r := by
  induction n with
  | nil => intro h; simp [leadMatch]
  | cons a as ih =>
    intro h
    cases h with
    | nil => simp [leadMatch]
    | cons b bs =>
      simp only [leadMatch, Bool.and_eq_true, beq_iff_eq, ih, List.cons_append,
        List.cons.injEq]
      constructor
      · rintro ⟨rfl, r, rfl⟩; exact ⟨r, rfl, rfl⟩
      · rintro ⟨r, rfl, rfl⟩; exact ⟨rfl, r, rfl⟩

/-- A substring occurrence is exactly an infix decomposition. -/
theorem subOccurs_iff (n : List Char) : ∀ h : List Char,
    subOccurs n h = true ↔ ∃ p r, h = p ++ (n ++ r) := by
  intro h
  induction h with
  | nil =>
    cases n with
    | nil => simp [subOccurs, leadMatch]
    | cons a as => simp [subOccurs, leadMatch]
  | cons b bs ih =>
    simp only [subOccurs, Bool.or_eq_true, leadMatch_iff, ih]
    constructor
    · rintro (⟨r, hr⟩ | ⟨p, r, hpr⟩)
      · exact ⟨[], r, by simp [hr]⟩
      · exact ⟨b :: p, r, by simp [hpr]⟩
    · rintro ⟨p, r, hpr⟩
      cases p with
      | nil => exact Or.inl ⟨r, by simpa using hpr⟩
      | cons x xs =>
        right
        injection hpr with h1 h2
        exact ⟨xs, r, h2⟩

/-- String containment as an infix decomposition of the character data. -/
theorem strContains_iff (hay needle : String) :
    strContains hay needle = true ↔
      ∃ p r, hay.data = p ++ (needle.data ++ r) := by
  unfold strContains
  exact subOccurs_iff needle.data hay.data

/-- Containment is transitive. -/
theorem strContains_trans (a b c : String) (hab : strContains a b = true)
    (hbc : strContains b c = true) : strContains a c = true := by
  rw [strContains_iff] at hab hbc ⊢
  obtain ⟨p, r, hp⟩ := hab
  obtain ⟨q, s, hq⟩ := hbc
  exact ⟨p ++ q, s ++ r, by simp [hp, hq, List.append_assoc]⟩

/-- The text of a turn is contained in its transcript block. -/
theorem turnBlock_contains_text (t : TurnDict) :
    strContains (turnBlock t) t.text = true := by
  rw [strContains_iff]
  refine ⟨("[" ++ strUpper t.speaker ++ " — " ++ t.role ++ "]" ++ "\n").data, [], ?_⟩
  simp [turnBlock, String.data_append, List.append_assoc]

/-- Joining a part onto a nonempty remainder inserts one separator. -/
theorem joinParts_cons (p : String) (l : List String) (h : l ≠ []) :
    joinParts (p :: l) = p ++ "\n\n" ++ joinParts l := by
  cases l with
  | nil => exact absurd rfl h
  | cons q rest => rfl

/-- Joining distributes over appending two nonempty part lists. -/
theorem joinParts_append (xs ys : List String) (hx : xs ≠ []) (hy : ys ≠ []) :
    joinParts (xs ++ ys) = joinParts xs ++ "\n\n" ++ joinParts ys := by
  induction xs with
  | nil => exact absurd rfl hx
  | cons x xs ih =>
    cases xs with
    | nil => simp [joinParts_cons x ys hy, joinParts]
    | cons x2 xs2 =>
      rw [List.cons_append, joinParts_cons x ((x2 :: xs2) ++ ys) (by simp),
        ih (by simp), joinParts_cons x (x2 :: xs2) (by simp)]
      simp [String.append_assoc]

/-- Every part is contained in the join of its part list. -/
theorem mem_joinParts_contains (l : List String) (p : String) (hp : p ∈ l) :
    strContains (joinParts l) p = true := by
  induction l with
  | nil => cases hp
  | cons q rest ih =>
    cases rest with
    | nil =>
      have : p = q := by simpa using hp
      subst this
      rw [strContains_iff]
      exact ⟨[], [], by simp [joinParts]⟩
    | cons q2 rest2 =>
      rcases List.mem_cons.mp hp with hpq | hmem
      · subst hpq
        rw [strContains_iff]
        refine ⟨[], ("\n\n" ++ joinParts (q2 :: rest2)).data, ?_⟩
        rw [joinParts_cons p (q2 :: rest2) (by simp)]
        simp [String.data_append, List.append_assoc]
      · have hrest := ih hmem
        rw [strContains_iff] at hrest ⊢
        obtain ⟨a, b, hab⟩ := hrest
        refine ⟨(q ++ "\n\n").data ++ a, b, ?_⟩
        rw [joinParts_cons q (q2 :: rest2) (by simp)]
        simp [String.data_append, hab, List.append_assoc]

/-- C6: `build_user_prompt` (`src/debateflow/prompts.py`) concatenates, in
order, the resolution statement, the stance reminder naming the side and
its stance word, then — only when the previous turns are nonempty — the
transcript block bracketed by start/end markers with every prior turn's
labeled verbatim text, then the role instruction parameterized by the
side's display name; with no previous turns the transcript block and its
markers are entirely absent, and every prior turn's text occurs verbatim
in the output. -/
theorem C6_user_prompt (res : String) (role : TurnRole)
    (prev : List TurnDict) (side : Side) :
    (prev = [] →
      DF.build_user_prompt res role prev side =
        "Resolution: " ++ res ++ "\n\n" ++
        "You are the " ++ (DF.SIDE_LABELS side).1 ++ ". You argue " ++
          (DF.SIDE_LABELS side).2 ++ " the resolution." ++ "\n\n" ++
        DF.TURN_INSTRUCTIONS role (DF.SIDE_LABELS side).1) ∧
    (prev ≠ [] →
      DF.build_user_prompt res role prev side =
        "Resolution: " ++ res ++ "\n\n" ++
        "You are the " ++ (DF.SIDE_LABELS side).1 ++ ". You argue " ++
          (DF.SIDE_LABELS side).2 ++ " the resolution." ++ "\n\n" ++
        "\n--- Debate so far ---" ++ "\n\n" ++
        joinParts (prev.map turnBlock) ++ "\n\n" ++
        "--- End of debate so far ---\n" ++ "\n\n" ++
        DF.TURN_INSTRUCTIONS role (DF.SIDE_LABELS side).1) ∧
    (∀ t ∈ prev,
      strContains (DF.build_user_prompt res role prev side) t.text = true) := by
  refine ⟨?_, ?_, ?_⟩
  · rintro rfl
    apply String.ext
    simp [DF.build_user_prompt, joinParts, String.data_append, List.append_assoc]
  · intro hne
    have hblocks : prev.map turnBlock ≠ [] := by
      intro h; exact hne (List.map_eq_nil_iff.mp h)
    simp only [DF.build_user_prompt, List.isEmpty_eq_false.mpr hne, Bool.false_eq_true,
      if_false, List.cons_append, List.nil_append, List.append_assoc]
    rw [joinParts_cons _ _ (by simp),
      joinParts_cons _ _ (by simp),
      joinParts_cons _ _ (List.append_ne_nil_of_left_ne_nil hblocks _),
      joinParts_append _ _ hblocks (by simp)]
    apply String.ext
    simp [joinParts, String.data_append, List.append_assoc]
  · intro t ht
    have hne : prev ≠ [] := by rintro rfl; cases ht
    simp only [DF.build_user_prompt, List.isEmpty_eq_false.mpr hne, Bool.false_eq_true,
      if_false]
    refine strContains_trans _ (turnBlock t) _
      (mem_joinParts_contains _ _ ?_) (turnBlock_contains_text t)
    simp only [List.mem_append, List.mem_cons, List.mem_singleton, List.mem_map]
    exact Or.inl (Or.inl (Or.inr ⟨t, ht, rfl⟩))

/-- Witness for C6: with one prior turn the prompt contains that turn's
verbatim text, and with no prior turns the prompt is exactly the
marker-free concatenation. -/
theorem C6_user_prompt_witness :
    strContains
      (DF.build_user_prompt "Ban cars" TurnRole.response
        [{ speaker := "aff", role := "opening", text := "Cars are bad." }] Side.neg)
      "Cars are bad." = true :=
  (C6_user_prompt "Ban cars" TurnRole.response
      [{ speaker := "aff", role := "opening", text := "Cars are bad." }] Side.neg).2.2
    { speaker := "aff", role := "opening", text := "Cars are bad." } (by simp)

end DebateFlow

namespace DebateFlow

/-- C7: `pick_voice_pair` returns two distinct voices drawn from the fixed
pool of the given provider, and the pair is exactly the 2-combination at
index `sha256(debate_id) mod k·(k−1)/2` of the ordered combinations of the
pool (the first component is used for AFF, the second for NEG); being a
pure function of the debate id, the selection is deterministic across
calls. -/
theorem C7_voice_pairing (id : String) (p : Voice.Provider) :
    (Voice.pick_voice_pair id p).1 ≠ (Voice.pick_voice_pair id p).2 ∧
    (Voice.pick_voice_pair id p).1 ∈ Voice.get_voice_pool p ∧
    (Voice.pick_voice_pair id p).2 ∈ Voice.get_voice_pool p ∧
    (Voice.all_distinct_pairs (Voice.get_voice_pool p)).length =
      (Voice.get_voice_pool p).length * ((Voice.get_voice_pool p).length - 1) / 2 ∧
    Voice.pick_voice_pair id p =
      (Voice.all_distinct_pairs (Voice.get_voice_pool p)).getD
        (Voice.sha256Nat (Voice.utf8Encode id) %
          ((Voice.get_voice_pool p).length * ((Voice.get_voice_pool p).length - 1) / 2))
        ({ vid := "", name := "" }, { vid := "", name := "" }) := by
  cases p
  case elevenlabs =>
    have hlt : Voice.sha256Nat (Voice.utf8Encode id) % 15 < 15 :=
      Nat.mod_lt _ (by norm_num)
    have key : ∀ i, i < 15 →
        ((Voice.all_distinct_pairs Voice.ELEVENLABS_VOICE_POOL).getD i
            ({ vid := "", name := "" }, { vid := "", name := "" })).1 ≠
          ((Voice.all_distinct_pairs Voice.ELEVENLABS_VOICE_POOL).getD i
            ({ vid := "", name := "" }, { vid := "", name := "" })).2 ∧
        ((Voice.all_distinct_pairs Voice.ELEVENLABS_VOICE_POOL).getD i
            ({ vid := "", name := "" }, { vid := "", name := "" })).1 ∈
          Voice.ELEVENLABS_VOICE_POOL ∧
        ((Voice.all_distinct_pairs Voice.ELEVENLABS_VOICE_POOL).getD i
            ({ vid := "", name := "" }, { vid := "", name := "" })).2 ∈
          Voice.ELEVENLABS_VOICE_POOL := by decide
    obtain ⟨h1, h2, h3⟩ := key _ hlt
    exact ⟨h1, h2, h3, rfl, rfl⟩
  case openai =>
    have hlt : Voice.sha256Nat (Voice.utf8Encode id) % 15 < 15 :=
      Nat.mod_lt _ (by norm_num)
    have key : ∀ i, i < 15 →
        ((Voice.all_distinct_pairs Voice.OPENAI_VOICE_POOL).getD i
            ({ vid := "", name := "" }, { vid := "", name := "" })).1 ≠
          ((Voice.all_distinct_pairs Voice.OPENAI_VOICE_POOL).getD i
            ({ vid := "", name := "" }, { vid := "", name := "" })).2 ∧
        ((Voice.all_distinct_pairs Voice.OPENAI_VOICE_POOL).getD i
            ({ vid := "", name := "" }, { vid := "", name := "" })).1 ∈
          Voice.OPENAI_VOICE_POOL ∧
        ((Voice.all_distinct_pairs Voice.OPENAI_VOICE_POOL).getD i
            ({ vid := "", name := "" }, { vid := "", name := "" })).2 ∈
          Voice.OPENAI_VOICE_POOL := by decide
    obtain ⟨h1, h2, h3⟩ := key _ hlt
    exact ⟨h1, h2, h3, rfl, rfl⟩

/-- C8: when all four external completion calls return text, the generated
turn list follows exactly the fixed (speaker, role) plan (AFF opening,
NEG response, AFF rebuttal, NEG closing), and the `i`-th turn's text is
the completion of the prompts built from exactly the turns produced before
it — in particular the first turn's user prompt is built from an empty
history. -/
theorem C8_turn_sequence (complete : Generator.Completion) (res : String)
    (affc negc : ModelConfig) (constraint : ConstraintInfo) (turns : List Turn)
    (h : Generator.generate_turns complete res affc negc constraint = some turns) :
    turns.map (fun t => (t.speaker, t.role)) =
      [(Side.aff, TurnRole.opening), (Side.neg, TurnRole.response),
       (Side.aff, TurnRole.rebuttal), (Side.neg, TurnRole.closing)] ∧
    ∀ i (hi : i < turns.length),
      complete (if (turns.get ⟨i, hi⟩).speaker = Side.aff then affc else negc)
        (Root.build_system_prompt (turns.get ⟨i, hi⟩).speaker constraint.type
          constraint.target_side (turns.get ⟨i, hi⟩).role)
        (Root.build_user_prompt res (turns.get ⟨i, hi⟩).role
          ((turns.take i).map Generator.toDict)) =
      some (turns.get ⟨i, hi⟩).text := by
  unfold Generator.generate_turns Generator.TURN_SEQUENCE at h
  simp only [Generator.genLoop] at h
  split at h
  · exact absurd h (by simp)
  rename_i t1 hc1
  split at h
  · exact absurd h (by simp)
  rename_i t2 hc2
  split at h
  · exact absurd h (by simp)
  rename_i t3 hc3
  split at h
  · exact absurd h (by simp)
  rename_i t4 hc4
  simp only [List.cons_append, List.nil_append, Option.some.injEq] at h
  subst h
  refine ⟨rfl, ?_⟩
  intro i hi
  simp only [List.length_cons, List.length_nil] at hi
  interval_cases i
  · simpa using hc1
  · simpa using hc2
  · simpa using hc3
  · simpa using hc4

/-- Witness for C8: with an oracle that always returns "x", generation
succeeds and the produced turns follow the fixed plan. -/
theorem C8_turn_sequence_witness :
    Generator.generate_turns (fun _ _ _ => some "x") "r"
        { provider := "anthropic", model_name := "m", temperature := 0 }
        { provider := "openai", model_name := "m2", temperature := 0 }
        { type := none, target_side := none } =
      some
        [{ speaker := Side.aff, role := TurnRole.opening, text := "x" },
         { speaker := Side.neg, role := TurnRole.response, text := "x" },
         { speaker := Side.aff, role := TurnRole.rebuttal, text := "x" },
         { speaker := Side.neg, role := TurnRole.closing, text := "x" }] ∧
    ([{ speaker := Side.aff, role := TurnRole.opening, text := "x" },
      { speaker := Side.neg, role := TurnRole.response, text := "x" },
      { speaker := Side.aff, role := TurnRole.rebuttal, text := "x" },
      { speaker := Side.neg, role := TurnRole.closing, text := "x" }] : List Turn).map
        (fun t => (t.speaker, t.role)) =
      [(Side.aff, TurnRole.opening), (Side.neg, TurnRole.response),
       (Side.aff, TurnRole.rebuttal), (Side.neg, TurnRole.closing)] :=
  ⟨rfl,
    (C8_turn_sequence (fun _ _ _ => some "x") "r"
      { provider := "anthropic", model_name := "m", temperature := 0 }
      { provider := "openai", model_name := "m2", temperature := 0 }
      { type := none, target_side := none } _ rfl).1⟩

end DebateFlow

namespace DebateFlow

/-- A list sum of mapped values equals the indexed sum over its length. -/
theorem list_sum_map_eq_range {M : Type} [AddCommMonoid M] (l : List String)
    (f : String → M) :
    (l.map f).sum = ∑ i ∈ Finset.range l.length, f (l.getD i "") := by
  induction l with
  | nil => simp
  | cons a t ih =>
    rw [List.map_cons, List.sum_cons, List.length_cons, Finset.sum_range_succ']
    simp only [List.getD_cons_succ, List.getD_cons_zero]
    rw [← ih, add_comm]

/-- C2: on equal-length label sequences, `_cohens_kappa` computes exactly
the formula the specification states: 0 for zero items; with C the sorted
union of observed labels and M the indexed |C|×|C| confusion count matrix,
1 when `p_e = (Σ row·col)/n²` equals 1 exactly, and `(p_o − p_e)/(1 − p_e)`
otherwise with `p_o = (Σ diagonal)/n`. -/
theorem C2_kappa_formula (A B : List String) (_hlen : A.length = B.length) :
    Agreement.cohens_kappa A B = Agreement.kappa_claim_formula A B := by
  unfold Agreement.cohens_kappa Agreement.kappa_claim_formula
  by_cases h0 : A.length = 0
  · simp [h0]
  · rw [if_neg h0, if_neg h0]
    have key : ∀ f : String → ℕ,
        (((Agreement.categories A B).map f).sum : ℚ) =
          ∑ i ∈ Finset.range (Agreement.categories A B).length,
            (f ((Agreement.categories A B).getD i "") : ℚ) := by
      intro f
      rw [Nat.cast_list_sum, List.map_map]
      exact list_sum_map_eq_range (Agreement.categories A B) (fun c => (f c : ℚ))
    have hpo : Agreement.p_o A B =
        (∑ i ∈ Finset.range (Agreement.categories A B).length,
          (Agreement.confusion A B ((Agreement.categories A B).getD i "")
            ((Agreement.categories A B).getD i "") : ℚ)) / (A.length : ℚ) := by
      unfold Agreement.p_o
      rw [key]
    have hrow : ∀ c, Agreement.rowSum A B c =
        ∑ j ∈ Finset.range (Agreement.categories A B).length,
          Agreement.confusion A B c ((Agreement.categories A B).getD j "") := by
      intro c
      unfold Agreement.rowSum
      exact list_sum_map_eq_range _ _
    have hcol : ∀ c, Agreement.colSum A B c =
        ∑ j ∈ Finset.range (Agreement.categories A B).length,
          Agreement.confusion A B ((Agreement.categories A B).getD j "") c := by
      intro c
      unfold Agreement.colSum
      exact list_sum_map_eq_range _ _
    have hpe : Agreement.p_e A B =
        (∑ i ∈ Finset.range (Agreement.categories A B).length,
          ((∑ j ∈ Finset.range (Agreement.categories A B).length,
              Agreement.confusion A B ((Agreement.categories A B).getD i "")
                ((Agreement.categories A B).getD j "") : ℕ) : ℚ) *
          ((∑ j ∈ Finset.range (Agreement.categories A B).length,
              Agreement.confusion A B ((Agreement.categories A B).getD j "")
                ((Agreement.categories A B).getD i "") : ℕ) : ℚ)) /
          ((A.length : ℚ) * (A.length : ℚ)) := by
      unfold Agreement.p_e
      rw [key]
      congr 1
      refine Finset.sum_congr rfl fun i _ => ?_
      rw [hrow, hcol]
      push_cast
      ring
    rw [hpo, hpe]
    rfl

/-- Witness for C2: concrete equal-length sequences evaluate identically
under the implementation and the specification formula. -/
theorem C2_kappa_formula_witness :
    (["a", "b"] : List String).length = (["a", "a"] : List String).length ∧
    Agreement.cohens_kappa ["a", "b"] ["a", "a"] =
      Agreement.kappa_claim_formula ["a", "b"] ["a", "a"] :=
  ⟨rfl, C2_kappa_formula ["a", "b"] ["a", "a"] rfl⟩

end DebateFlow

namespace DebateFlow

/-- Zipping a list with itself pairs each element with itself. -/
theorem zip_self {α : Type} (A : List α) : A.zip A = A.map (fun a => (a, a)) := by
  induction A with
  | nil => rfl
  | cons a t ih => simp [ih]

/-- On identical sequences the confusion matrix is diagonal, with the
label counts on the diagonal. -/
theorem confusion_self (A : List String) (x y : String) :
    Agreement.confusion A A x y = if x = y then A.count x else 0 := by
  unfold Agreement.confusion
  rw [zip_self, List.countP_map]
  by_cases hxy : x = y
  · subst hxy
    rw [if_pos rfl, List.count_eq_countP]
    congr 1
    funext a
    simp [Function.comp]
  · rw [if_neg hxy]
    apply List.countP_eq_zero.mpr
    intro a _
    simp only [Function.comp, Bool.and_eq_true, beq_iff_eq, not_and]
    rintro rfl rfl
    exact hxy rfl

/-- Sorted insertion permutes to a cons. -/
theorem insertSorted_perm (x : String) (l : List String) :
    (insertSorted x l).Perm (x :: l) := by
  induction l with
  | nil => exact List.Perm.refl _
  | cons y ys ih =>
    unfold insertSorted
    by_cases h : strLe x y = true
    · simp [h]
    · simp only [h, if_false]
      exact (ih.cons y).trans (List.Perm.swap x y ys)

/-- The insertion sort permutes its input. -/
theorem sortLabels_perm (l : List String) : (sortLabels l).Perm l := by
  induction l with
  | nil => exact List.Perm.refl _
  | cons x xs ih => exact (insertSorted_perm x (sortLabels xs)).trans (ih.cons x)

/-- The sorted category alphabet permutes the deduplicated label union. -/
theorem categories_perm (A B : List String) :
    (Agreement.categories A B).Perm ((A ++ B).dedup) := sortLabels_perm _

/-- Membership in the category alphabet is label occurrence. -/
theorem mem_categories {A B : List String} {x : String} :
    x ∈ Agreement.categories A B ↔ x ∈ A ++ B := by
  rw [(categories_perm A B).mem_iff, List.mem_dedup]

/-- The category alphabet has no duplicates. -/
theorem categories_nodup (A B : List String) : (Agreement.categories A B).Nodup :=
  ((categories_perm A B).nodup_iff).mpr (List.nodup_dedup _)

/-- Summing an indicator of a single member over a duplicate-free list
picks out its value. -/
theorem sum_map_single {l : List String} (hl : l.Nodup) {x : String} (hx : x ∈ l)
    (v : ℕ) :
    (l.map (fun y => if x = y then v else 0)).sum = v := by
  induction l with
  | nil => cases hx
  | cons a t ih =>
    rw [List.map_cons, List.sum_cons]
    rcases List.mem_cons.mp hx with rfl | hx'
    · rw [if_pos rfl, List.sum_eq_zero, add_zero]
      intro b hb
      obtain ⟨y, hy, rfl⟩ := List.mem_map.mp hb
      exact if_neg fun h => (List.nodup_cons.mp hl).1 (by rw [h]; exact hy)
    · have hxa : x ≠ a := fun h => (List.nodup_cons.mp hl).1 (by rw [← h]; exact hx')
      rw [if_neg hxa, zero_add]
      exact ih (List.nodup_cons.mp hl).2 hx'

/-- Over identical sequences, the per-category counts sum to the sequence
length. -/
theorem sum_count_categories (A : List String) :
    ((Agreement.categories A A).map (fun c => A.count c)).sum = A.length := by
  rw [((categories_perm A A).map (fun c => A.count c)).sum_eq]
  have h2 : (((A ++ A).dedup).map (fun c => List.count c (A ++ A))).sum = (A ++ A).length :=
    List.sum_map_count_dedup_eq_length _
  have h3 : (((A ++ A).dedup).map (fun c => List.count c (A ++ A))).sum =
      2 * (((A ++ A).dedup).map (fun c => A.count c)).sum := by
    have hpt : (fun c => List.count c (A ++ A)) = (fun c => 2 * List.count c A) := by
      funext c
      rw [List.count_append]
      omega
    rw [hpt, ← List.sum_map_mul_left]
  have h4 : (A ++ A).length = 2 * A.length := by
    rw [List.length_append]; omega
  omega

/-- Over identical sequences a row sum collapses to the category count. -/
theorem rowSum_self (A : List String) {x : String}
    (hx : x ∈ Agreement.categories A A) :
    Agreement.rowSum A A x = A.count x := by
  unfold Agreement.rowSum
  have he : ((Agreement.categories A A).map (fun y => Agreement.confusion A A x y)) =
      ((Agreement.categories A A).map (fun y => if x = y then A.count x else 0)) := by
    congr 1
    funext y
    exact confusion_self A x y
  rw [he, sum_map_single (categories_nodup A A) hx]

/-- Over identical sequences a column sum collapses to the category
count. -/
theorem colSum_self (A : List String) {x : String}
    (hx : x ∈ Agreement.categories A A) :
    Agreement.colSum A A x = A.count x := by
  unfold Agreement.colSum
  have he : ((Agreement.categories A A).map (fun y => Agreement.confusion A A y x)) =
      ((Agreement.categories A A).map (fun y => if x = y then A.count x else 0)) := by
    congr 1
    funext y
    rw [confusion_self A y x]
    by_cases h : y = x
    · subst h; simp
    · rw [if_neg h, if_neg fun hxy => h hxy.symm]
  rw [he, sum_map_single (categories_nodup A A) hx]

/-- Observed agreement on identical nonempty sequences is exactly 1. -/
theorem p_o_self (A : List String) (hA : A ≠ []) : Agreement.p_o A A = 1 := by
  unfold Agreement.p_o
  have he : ((Agreement.categories A A).map (fun c => Agreement.confusion A A c c)) =
      ((Agreement.categories A A).map (fun c => A.count c)) := by
    congr 1
    funext c
    rw [confusion_self, if_pos rfl]
  rw [he, sum_count_categories A]
  have hlen : (A.length : ℚ) ≠ 0 :=
    Nat.cast_ne_zero.mpr fun h => hA (List.length_eq_zero.mp h)
  exact div_self hlen

/-- Each element of a list of naturals is at most the sum. -/
theorem mem_le_sum_nat {l : List ℕ} {x : ℕ} (hx : x ∈ l) : x ≤ l.sum := by
  induction l with
  | nil => cases hx
  | cons a t ih =>
    rw [List.sum_cons]
    rcases List.mem_cons.mp hx with rfl | hx'
    · exact Nat.le_add_right _ _
    · exact le_trans (ih hx') (Nat.le_add_left _ _)

/-- The sum of squares is at most the square of the sum (naturals). -/
theorem sum_sq_le (l : List ℕ) : (l.map (fun x => x * x)).sum ≤ l.sum * l.sum := by
  induction l with
  | nil => simp
  | cons a t ih =>
    simp only [List.map_cons, List.sum_cons]
    calc a * a + (List.map (fun x => x * x) t).sum
        ≤ a * a + t.sum * t.sum := Nat.add_le_add_left ih _
      _ ≤ (a + t.sum) * (a + t.sum) := by nlinarith [Nat.zero_le (a * t.sum)]

/-- With at least two positive entries the sum of squares is strictly
below the square of the sum. -/
theorem sum_sq_lt (l : List ℕ) (h1 : ∀ x ∈ l, 1 ≤ x) (h2 : 2 ≤ l.length) :
    (l.map (fun x => x * x)).sum < l.sum * l.sum := by
  cases l with
  | nil => simp at h2
  | cons a t =>
    have ht : t ≠ [] := by rintro rfl; simp at h2
    have ha : 1 ≤ a := h1 a (List.mem_cons_self _ _)
    obtain ⟨y, hy⟩ := List.exists_mem_of_ne_nil t ht
    have hts : 1 ≤ t.sum :=
      le_trans (h1 y (List.mem_cons.mpr (Or.inr hy))) (mem_le_sum_nat hy)
    simp only [List.map_cons, List.sum_cons]
    nlinarith [sum_sq_le t]

/-- On identical sequences with at least two distinct labels the expected
agreement is not 1. -/
theorem p_e_self_ne_one (A : List String) (hA : A ≠ [])
    (hd : 2 ≤ A.dedup.length) : Agreement.p_e A A ≠ 1 := by
  unfold Agreement.p_e
  have hprod : ((Agreement.categories A A).map
        (fun c => Agreement.rowSum A A c * Agreement.colSum A A c)).sum =
      (((Agreement.categories A A).map (fun c => A.count c)).map (fun x => x * x)).sum := by
    rw [List.map_map]
    apply List.Perm.sum_eq
    apply List.Perm.of_eq
    apply List.map_congr_left
    intro c hc
    simp only [Function.comp]
    rw [rowSum_self A hc, colSum_self A hc]
  have hS : ((Agreement.categories A A).map (fun c => A.count c)).sum = A.length :=
    sum_count_categories A
  have h1 : ∀ x ∈ (Agreement.categories A A).map (fun c => A.count c), 1 ≤ x := by
    intro x hx
    obtain ⟨c, hc, rfl⟩ := List.mem_map.mp hx
    have hcA : c ∈ A := by simpa using mem_categories.mp hc
    exact List.count_pos_iff.mpr hcA
  have h2 : 2 ≤ ((Agreement.categories A A).map (fun c => A.count c)).length := by
    rw [List.length_map, (categories_perm A A).length_eq]
    have hdd : (A ++ A).dedup.length = A.dedup.length := by
      rw [← List.card_toFinset, ← List.card_toFinset, List.toFinset_append,
        Finset.union_self]
    omega
  have hlt : (((Agreement.categories A A).map (fun c => A.count c)).map
      (fun x => x * x)).sum < A.length * A.length := by
    have := sum_sq_lt _ h1 h2
    rwa [hS] at this
  rw [hprod]
  intro hcontra
  have hn : ((A.length : ℚ) * (A.length : ℚ)) ≠ 0 := by
    have : (A.length : ℚ) ≠ 0 :=
      Nat.cast_ne_zero.mpr fun h => hA (List.length_eq_zero.mp h)
    exact mul_ne_zero this this
  rw [div_eq_one_iff_eq hn] at hcontra
  have : (((Agreement.categories A A).map (fun c => A.count c)).map
      (fun x => x * x)).sum = A.length * A.length := by
    exact_mod_cast hcontra
  omega

/-- C9: Cohen's kappa is exactly 1 on identical nonempty sequences with at
least two distinct labels, exactly 0 on empty sequences, and exactly 0 on
a fully chance-level confusion pattern. -/
theorem C9_kappa_properties :
    (∀ A : List String, A ≠ [] → 2 ≤ A.dedup.length →
      Agreement.cohens_kappa A A = 1) ∧
    Agreement.cohens_kappa [] [] = 0 ∧
    Agreement.cohens_kappa ["x", "x", "y", "y"] ["x", "y", "x", "y"] = 0 := by
  refine ⟨?_, ?_, ?_⟩
  · intro A hA hd
    unfold Agreement.cohens_kappa
    rw [if_neg fun h => hA (List.length_eq_zero.mp h),
      if_neg (p_e_self_ne_one A hA hd), p_o_self A hA]
    exact div_self (sub_ne_zero_of_ne (Ne.symm (p_e_self_ne_one A hA hd)))
  · simp [Agreement.cohens_kappa]
  · have hpo : Agreement.p_o ["x", "x", "y", "y"] ["x", "y", "x", "y"] = 1 / 2 := by
      unfold Agreement.p_o
      have h1 : ((Agreement.categories ["x", "x", "y", "y"] ["x", "y", "x", "y"]).map
          (fun c => Agreement.confusion ["x", "x", "y", "y"] ["x", "y", "x", "y"] c c)).sum
          = 2 := by decide
      rw [h1]
      norm_num
    have hpe : Agreement.p_e ["x", "x", "y", "y"] ["x", "y", "x", "y"] = 1 / 2 := by
      unfold Agreement.p_e
      have h1 : ((Agreement.categories ["x", "x", "y", "y"] ["x", "y", "x", "y"]).map
          (fun c => Agreement.rowSum ["x", "x", "y", "y"] ["x", "y", "x", "y"] c *
            Agreement.colSum ["x", "x", "y", "y"] ["x", "y", "x", "y"] c)).sum = 8 := by
        decide
      rw [h1]
      norm_num
    unfold Agreement.cohens_kappa
    rw [hpo, hpe]
    norm_num

/-- Witness for C9: the identical two-label sequence ["a", "b"] satisfies
the hypotheses and gets kappa exactly 1. -/
theorem C9_kappa_properties_witness :
    (["a", "b"] : List String) ≠ [] ∧ 2 ≤ (["a", "b"] : List String).dedup.length ∧
    Agreement.cohens_kappa ["a", "b"] ["a", "b"] = 1 :=
  ⟨by decide, by decide, C9_kappa_properties.1 ["a", "b"] (by decide) (by decide)⟩

end DebateFlow

namespace DebateFlow

/-- Members of a debate group carry that debate id. -/
theorem groupFor_id {anns : List Annotation} {id : String} {a : Annotation}
    (ha : a ∈ Agreement.groupFor anns id) : a.debate_id = id := by
  unfold Agreement.groupFor at ha
  exact beq_iff_eq.mp (List.mem_filter.mp ha).2

/-- Members of a debate group are annotations of the input list. -/
theorem groupFor_sub {anns : List Annotation} {id : String} {a : Annotation}
    (ha : a ∈ Agreement.groupFor anns id) : a ∈ anns :=
  List.mem_of_mem_filter ha

/-- Every pair kept by the pairing step comes from a debate id whose group
is exactly that pair with distinct annotators. -/
theorem pairedPairs_mem {anns : List Annotation} {p : Annotation × Annotation}
    (hp : p ∈ Agreement.pairedPairs anns) :
    ∃ id, Agreement.groupFor anns id = [p.1, p.2] ∧
      p.1.annotator_id ≠ p.2.annotator_id ∧ p.1.debate_id = id := by
  obtain ⟨id, _, hf⟩ := List.mem_filterMap.mp hp
  refine ⟨id, ?_⟩
  rcases hg : Agreement.groupFor anns id with _ | ⟨a, _ | ⟨b, _ | ⟨c, rest⟩⟩⟩ <;>
    rw [hg] at hf
  · simp at hf
  · simp at hf
  · have hf' : (if a.annotator_id ≠ b.annotator_id then some (a, b) else none) =
        some p := hf
    by_cases hab : a.annotator_id ≠ b.annotator_id
    · rw [if_pos hab] at hf'
      obtain rfl := Option.some.inj hf'
      refine ⟨rfl, hab, ?_⟩
      exact groupFor_id (by rw [hg]; exact List.mem_cons_self _ _)
    · rw [if_neg hab] at hf'
      simp at hf'
  · simp at hf

/-- Components of a kept pair are annotations of the input list. -/
theorem pairedPairs_sub {anns : List Annotation} {p : Annotation × Annotation}
    (hp : p ∈ Agreement.pairedPairs anns) : p.1 ∈ anns ∧ p.2 ∈ anns := by
  obtain ⟨id, hg, -, -⟩ := pairedPairs_mem hp
  constructor
  · exact @groupFor_sub anns id p.1 (by rw [hg]; exact List.mem_cons_self _ _)
  · exact @groupFor_sub anns id p.2 (by rw [hg]; simp)

/-- The sorted distinct debate ids carry no duplicates. -/
theorem debateIds_nodup (anns : List Annotation) :
    (Agreement.debateIds anns).Nodup :=
  (sortLabels_perm _).nodup_iff.mpr (List.nodup_dedup _)

/-- Mapping a left inverse over a `filterMap` yields a sublist of the
input. -/
theorem map_filterMap_sublist {α β : Type} (f : α → Option β) (g : β → α)
    (hfg : ∀ x y, f x = some y → g y = x) (l : List α) :
    ((l.filterMap f).map g).Sublist l := by
  induction l with
  | nil => simp
  | cons x t ih =>
    cases hfx : f x with
    | none =>
      rw [List.filterMap_cons_none hfx]
      exact ih.cons x
    | some y =>
      rw [List.filterMap_cons_some hfx, List.map_cons, hfg x y hfx]
      exact ih.cons₂ x

/-- C5: the pairing step of `compute_agreement` keeps exactly the debate
ids whose annotation group has size exactly two with two distinct
annotator ids (each such id exactly once); every other group size — and a
size-2 group by a single annotator — is silently excluded; the reported
`paired_debates` equals the number of kept pairs; and with no paired
debate the function returns the zero report (no winner kappa, empty
per-dimension mapping) rather than failing. -/
theorem C5_agreement_grouping (anns : List Annotation) :
    (∀ id : String,
      (∃ p, p ∈ Agreement.pairedPairs anns ∧ p.1.debate_id = id) ↔
        (∃ a b, Agreement.groupFor anns id = [a, b] ∧
          a.annotator_id ≠ b.annotator_id)) ∧
    ((Agreement.pairedPairs anns).map (fun p => p.1.debate_id)).Nodup ∧
    (∀ r, Agreement.compute_agreement anns = some r →
      r.paired_debates = (Agreement.pairedPairs anns).length) ∧
    (Agreement.pairedPairs anns = [] →
      Agreement.compute_agreement anns =
        some { paired_debates := 0, winner_kappa := none,
               dimension_agreement := [] }) := by
  refine ⟨?_, ?_, ?_, ?_⟩
  · intro id
    constructor
    · rintro ⟨p, hp, rfl⟩
      obtain ⟨id', hg, hne, hid⟩ := pairedPairs_mem hp
      rw [← hid] at hg
      exact ⟨p.1, p.2, hg, hne⟩
    · rintro ⟨a, b, hg, hne⟩
      have haG : a ∈ Agreement.groupFor anns id := by
        rw [hg]; exact List.mem_cons_self _ _
      have hidm : id ∈ Agreement.debateIds anns := by
        apply (sortLabels_perm _).mem_iff.mpr
        apply List.mem_dedup.mpr
        exact List.mem_map.mpr ⟨a, groupFor_sub haG, groupFor_id haG⟩
      refine ⟨(a, b), List.mem_filterMap.mpr ⟨id, hidm, ?_⟩, groupFor_id haG⟩
      rw [hg]
      show (if a.annotator_id ≠ b.annotator_id then some (a, b) else none) =
        some (a, b)
      rw [if_pos hne]
  · apply List.Sublist.nodup _ (debateIds_nodup anns)
    apply map_filterMap_sublist
    intro id p hf
    rcases hg : Agreement.groupFor anns id with _ | ⟨a, _ | ⟨b, _ | ⟨c, rest⟩⟩⟩ <;>
      rw [hg] at hf
    · simp at hf
    · simp at hf
    · have hf' : (if a.annotator_id ≠ b.annotator_id then some (a, b) else none) =
          some p := hf
      by_cases hab : a.annotator_id ≠ b.annotator_id
      · rw [if_pos hab] at hf'
        obtain rfl := Option.some.inj hf'
        exact groupFor_id (by rw [hg]; exact List.mem_cons_self _ _)
      · rw [if_neg hab] at hf'
        simp at hf'
    · simp at hf
  · intro r hr
    simp only [Agreement.compute_agreement] at hr
    by_cases hp : (Agreement.pairedPairs anns).isEmpty
    · rw [if_pos hp] at hr
      obtain rfl := Option.some.inj hr
      simp [List.isEmpty_iff.mp hp]
    · rw [if_neg hp] at hr
      split at hr
      · exact absurd hr (by simp)
      · obtain rfl := Option.some.inj hr
        rfl
  · intro h
    simp [Agreement.compute_agreement, h]

/-- Witness for C5: in the spec's scenario (debate X with two distinct
annotators, Y twice by the same annotator, Z three times) only X is
paired; a lone annotation yields the zero report. -/
theorem C5_agreement_grouping_witness :
    (∃ p, p ∈ Agreement.pairedPairs
        ([{ debate_id := "X", annotator_id := "r1", winner := Side.aff,
            winner_justification := "", dimension_scores := [], annotated_at := "" },
          { debate_id := "X", annotator_id := "r2", winner := Side.neg,
            winner_justification := "", dimension_scores := [], annotated_at := "" },
          { debate_id := "Y", annotator_id := "r1", winner := Side.aff,
            winner_justification := "", dimension_scores := [], annotated_at := "" },
          { debate_id := "Y", annotator_id := "r1", winner := Side.neg,
            winner_justification := "", dimension_scores := [], annotated_at := "" },
          { debate_id := "Z", annotator_id := "r1", winner := Side.aff,
            winner_justification := "", dimension_scores := [], annotated_at := "" },
          { debate_id := "Z", annotator_id := "r2", winner := Side.aff,
            winner_justification := "", dimension_scores := [], annotated_at := "" },
          { debate_id := "Z", annotator_id := "r3", winner := Side.aff,
            winner_justification := "", dimension_scores := [], annotated_at := "" }] :
          List Annotation) ∧ p.1.debate_id = "X") ∧
    Agreement.compute_agreement
        [{ debate_id := "D", annotator_id := "r1", winner := Side.aff,
           winner_justification := "", dimension_scores := [], annotated_at := "" }] =
      some { paired_debates := 0, winner_kappa := none, dimension_agreement := [] } :=
  ⟨((C5_agreement_grouping _).1 "X").mpr
      ⟨{ debate_id := "X", annotator_id := "r1", winner := Side.aff,
         winner_justification := "", dimension_scores := [], annotated_at := "" },
       { debate_id := "X", annotator_id := "r2", winner := Side.neg,
         winner_justification := "", dimension_scores := [], annotated_at := "" },
       by decide, by decide⟩,
    (C5_agreement_grouping _).2.2.2 (by decide)⟩

end DebateFlow

namespace DebateFlow

/-- A valid score list contains a score for every rubric dimension, so the
first-match lookup succeeds. -/
theorem validDimensionScores_find {scores : List DimensionScore}
    (hv : validDimensionScores scores) {dim : String}
    (hdim : dim ∈ ANNOTATION_DIMENSIONS) :
    (Agreement.findScore scores dim).isSome = true := by
  unfold Agreement.findScore
  apply List.find?_isSome.mpr
  have h1 : dim ∈ sortLabels ANNOTATION_DIMENSIONS :=
    (sortLabels_perm _).mem_iff.mpr hdim
  rw [← hv.2] at h1
  have h2 : dim ∈ scores.map (fun ds => ds.dimension) :=
    (sortLabels_perm _).mem_iff.mp h1
  obtain ⟨ds, hds, hd⟩ := List.mem_map.mp h2
  exact ⟨ds, hds, beq_iff_eq.mpr hd⟩

/-- Sequencing succeeds when every element succeeds. -/
theorem optionMapM_isSome {α β : Type} (f : α → Option β) (l : List α)
    (h : ∀ x ∈ l, (f x).isSome = true) :
    (Agreement.optionMapM f l).isSome = true := by
  induction l with
  | nil => rfl
  | cons x t ih =>
    have hx := h x (List.mem_cons_self _ _)
    have ht := ih fun z hz => h z (List.mem_cons.mpr (Or.inr hz))
    unfold Agreement.optionMapM
    cases hfx : f x with
    | none => rw [hfx] at hx; simp at hx
    | some y =>
      cases hmt : Agreement.optionMapM f t with
      | none => rw [hmt] at ht; simp at ht
      | some ys => rfl

/-- Mapping over an option preserves definedness. -/
theorem option_isSome_map {γ δ : Type} (o : Option γ) (g : γ → δ) :
    (o.map g).isSome = o.isSome := by
  cases o <;> rfl

/-- C10: on annotation lists whose members all satisfy the pydantic
dimension-score invariant, every per-dimension lookup inside
`compute_agreement` finds a score for each rubric dimension (both
annotators of every paired debate), and the function returns a report —
the `none` outcome modelling a raised exception cannot occur.  Division by
zero cannot occur either: the kappa denominators are guarded by the
`n = 0` and `p_e = 1` branches of `cohens_kappa`. -/
theorem C10_agreement_total (anns : List Annotation)
    (hv : ∀ a ∈ anns, validDimensionScores a.dimension_scores) :
    (∀ p ∈ Agreement.pairedPairs anns, ∀ dim ∈ ANNOTATION_DIMENSIONS,
      (Agreement.findScore p.1.dimension_scores dim).isSome = true ∧
      (Agreement.findScore p.2.dimension_scores dim).isSome = true) ∧
    ∃ r, Agreement.compute_agreement anns = some r := by
  have hfind : ∀ p ∈ Agreement.pairedPairs anns, ∀ dim ∈ ANNOTATION_DIMENSIONS,
      (Agreement.findScore p.1.dimension_scores dim).isSome = true ∧
      (Agreement.findScore p.2.dimension_scores dim).isSome = true := by
    intro p hp dim hdim
    obtain ⟨h1, h2⟩ := pairedPairs_sub hp
    exact ⟨validDimensionScores_find (hv _ h1) hdim,
      validDimensionScores_find (hv _ h2) hdim⟩
  refine ⟨hfind, ?_⟩
  simp only [Agreement.compute_agreement]
  by_cases hp : (Agreement.pairedPairs anns).isEmpty
  · rw [if_pos hp]
    exact ⟨_, rfl⟩
  · rw [if_neg hp]
    have hsome : (Agreement.optionMapM
        (fun dim => (Agreement.dimensionAgreementFor (Agreement.pairedPairs anns) dim).map
          (fun q => (dim, q))) ANNOTATION_DIMENSIONS).isSome = true := by
      apply optionMapM_isSome
      intro dim hdim
      rw [option_isSome_map]
      unfold Agreement.dimensionAgreementFor
      have hin : (Agreement.optionMapM (fun p =>
          match Agreement.findScore p.1.dimension_scores dim,
              Agreement.findScore p.2.dimension_scores dim with
          | some sa, some sb => some (sa, sb)
          | _, _ => none) (Agreement.pairedPairs anns)).isSome = true := by
        apply optionMapM_isSome
        intro p hp'
        obtain ⟨hf1, hf2⟩ := hfind p hp' dim hdim
        cases h1 : Agreement.findScore p.1.dimension_scores dim with
        | none => rw [h1] at hf1; simp at hf1
        | some sa =>
          cases h2 : Agreement.findScore p.2.dimension_scores dim with
          | none => rw [h2] at hf2; simp at hf2
          | some sb => simp [h1, h2]
      cases hm : Agreement.optionMapM (fun p =>
          match Agreement.findScore p.1.dimension_scores dim,
              Agreement.findScore p.2.dimension_scores dim with
          | some sa, some sb => some (sa, sb)
          | _, _ => none) (Agreement.pairedPairs anns) with
      | none => rw [hm] at hin; simp at hin
      | some sps => rfl
    obtain ⟨dims, hdims⟩ := Option.isSome_iff_exists.mp hsome
    rw [hdims]
    exact ⟨_, rfl⟩

/-- Witness for C10: two annotations of one debate by distinct annotators
with full score sets produce a report. -/
theorem C10_agreement_total_witness :
    ∃ r, Agreement.compute_agreement
        [{ debate_id := "X", annotator_id := "r1", winner := Side.aff,
           winner_justification := "",
           dimension_scores :=
             [{ dimension := "clash_engagement", aff_score := 2, neg_score := 1 },
              { dimension := "burden_fulfillment", aff_score := 2, neg_score := 1 },
              { dimension := "rebuttal_quality", aff_score := 2, neg_score := 1 },
              { dimension := "argument_extension", aff_score := 2, neg_score := 1 },
              { dimension := "strategic_adaptation", aff_score := 2, neg_score := 1 }],
           annotated_at := "" },
         { debate_id := "X", annotator_id := "r2", winner := Side.aff,
           winner_justification := "",
           dimension_scores :=
             [{ dimension := "clash_engagement", aff_score := 3, neg_score := 1 },
              { dimension := "burden_fulfillment", aff_score := 2, neg_score := 2 },
              { dimension := "rebuttal_quality", aff_score := 1, neg_score := 1 },
              { dimension := "argument_extension", aff_score := 2, neg_score := 1 },
              { dimension := "strategic_adaptation", aff_score := 3, neg_score := 3 }],
           annotated_at := "" }] = some r :=
  (C10_agreement_total _ (by decide)).2

end DebateFlow

namespace DebateFlow

set_option maxRecDepth 100000 in
/-- Sanity check of the SHA-256 embedding against the standard "abc" test
vector. -/
theorem sha256_abc_vector :
    Voice.sha256Nat (Voice.utf8Encode "abc") =
      0xba7816bf8f01cfea414140de5dae2223b00361a396177a9cb410ff61f20015ad := by
  decide

end DebateFlow
